import Mathlib

/-!
Verification of the dog-feeding dashboard's event pipeline
(`src/app/page.tsx`, component `DogFeedingTracker`).

Shallow embedding conventions:

* A JavaScript `Date` is modelled as an `Int`: its `getTime()` value, the
  number of milliseconds on an idealized linear local timeline (no DST
  jumps);
  `getHours`, the 02:00 reset computation and `Date` comparison are
  expressed by integer arithmetic on that timeline.  `Int./` and `Int.%`
  with a positive literal divisor are floor division / nonnegative
  remainder, matching JS `Math.floor` and hour-of-day extraction.
* A JavaScript string is modelled as `JSStr := List Char`, with
  `splitOnChar`, `jsTrim`, `startsWithChar` mirroring `String.split`
  (single-character separator), `String.trim` and `String.startsWith`.
* The JS built-in `Date` constructor applied to a timestamp string is an
  external browser facility, so the parsing pipeline is parameterized by
  `jsDate : JSStr → Option Int` (`none` models an invalid date, i.e.
  `isNaN(date.getTime())`).
* The React `useState` cells of the component form `TrackerState`; one
  invocation of `fetchFeedingData` is `step`, acting on the state with the
  cycle's fetch outcome.  The component's top-level rendering branch
  (loading spinner / error card / status display) is `render`.
-/

/-- A JS string: its sequence of characters. -/
abbrev JSStr := List Char

/-- Milliseconds per minute (the literal `60000` in `getTimeAgo`). -/
def msPerMin : Int := 60000

/-- Milliseconds per hour. -/
def msPerHour : Int := 3600000

/-- Milliseconds per calendar day on the local timeline. -/
def msPerDay : Int := 86400000

/-- JS `date.getHours()`: the local hour-of-day of a timestamp. -/
def getHours (t : Int) : Int := (t % msPerDay) / msPerHour

/-- JS `s.split(sep)` for a single-character separator: every occurrence of
`sep` splits, empty segments are kept, and the empty string splits to
`[[]]` (JS `"".split(sep)` is `[""]`). -/
def splitOnChar (sep : Char) : List Char → List (List Char)
  | [] => [[]]
  | c :: rest =>
    match splitOnChar sep rest with
    | [] => [[c]]
    | h :: t => if c = sep then [] :: h :: t else (c :: h) :: t

/-- JS `s.trim()`: strip whitespace from both ends. -/
def jsTrim (s : JSStr) : JSStr :=
  ((s.dropWhile Char.isWhitespace).reverse.dropWhile Char.isWhitespace).reverse

/-- JS `s.startsWith(c)` for a single-character prefix argument. -/
def startsWithChar (c : Char) : JSStr → Bool
  | [] => false
  | x :: _ => x = c

/-- The destructuring `const [timestamp] = line.split(',')`: the first
comma-delimited field of a line. -/
def firstField (line : JSStr) : JSStr := (splitOnChar ',' line).headD []

/-- The parsing chain of `fetchFeedingData` applied to the list of lines:
`lines.slice(1).filter(line => !line.startsWith('#')).map(line => new
Date(line.split(',')[0])).filter(date => !isNaN(date.getTime()))`.  The
map-then-drop-invalid pair is rendered as `List.filterMap` over the
`Option`-valued external date constructor `jsDate`. -/
def parseLines (jsDate : JSStr → Option Int) (lines : List JSStr) : List Int :=
  ((lines.drop 1).filter (fun l => !startsWithChar '#' l)).filterMap
    (fun l => jsDate (firstField l))

/-- The full parser on the fetched text: `text.trim().split('\n')` followed
by `parseLines`. -/
def parseEvents (jsDate : JSStr → Option Int) (text : JSStr) : List Int :=
  parseLines jsDate (splitOnChar '\n' (jsTrim text))

/-- `events.sort((a, b) => b.getTime() - a.getTime())`: the events in
descending timestamp order.  Events carry no identity besides their
timestamp, so any descending sort produces the same list. -/
def sortDesc (events : List Int) : List Int :=
  List.insertionSort (fun a b => b ≤ a) events

/-- The 02:00 feeding-day start: `resetTime = new Date(now);
resetTime.setHours(2, 0, 0, 0); if (now.getHours() < 2)
resetTime.setDate(resetTime.getDate() - 1)`.  `(now / msPerDay) * msPerDay`
is local midnight of `now`'s calendar day. -/
def resetTimeOf (now : Int) : Int :=
  if getHours now < 2 then (now / msPerDay) * msPerDay + (2 : Int) * msPerHour - msPerDay
  else (now / msPerDay) * msPerDay + (2 : Int) * msPerHour

/-- `todayEvents = events.filter(date => date >= resetTime)`, applied (as in
the source) to the descending-sorted event list. -/
def todayEventsOf (events : List Int) (now : Int) : List Int :=
  (sortDesc events).filter (fun d => decide (resetTimeOf now ≤ d))

/-- `todayEvents.filter(date => { const hour = date.getHours(); return hour
>= lo && hour < hi; })` — the shape shared by the breakfast and dinner
window filters. -/
def windowEventsOf (lo hi : Int) (events : List Int) (now : Int) : List Int :=
  (todayEventsOf events now).filter (fun d => decide (lo ≤ getHours d ∧ getHours d < hi))

/-- `breakfastEvents`: window [7, 10). -/
def breakfastEventsOf (events : List Int) (now : Int) : List Int :=
  windowEventsOf 7 10 events now

/-- `dinnerEvents`: window [16, 20). -/
def dinnerEventsOf (events : List Int) (now : Int) : List Int :=
  windowEventsOf 16 20 events now

/-- The `useState` cells of `DogFeedingTracker`. -/
structure TrackerState where
  breakfastFed : Bool
  dinnerFed : Bool
  breakfastTime : Option Int
  dinnerTime : Option Int
  lastMovement : Option Int
  loading : Bool
  error : Option JSStr
deriving DecidableEq, Repr

/-- The initial state: `useState(false)`, `useState<Date|null>(null)`,
`useState(true)` for `loading`, `useState<string|null>(null)` for `error`. -/
def initialState : TrackerState :=
  { breakfastFed := false
    dinnerFed := false
    breakfastTime := none
    dinnerTime := none
    lastMovement := none
    loading := true
    error := none }

/-- One poll cycle's fetch outcome: a thrown/transport error or non-ok
response (`failure` with the message that reaches `catch`), or the fetched
response text. -/
inductive FetchOutcome where
  | failure (msg : JSStr)
  | success (text : JSStr)

/-- The body of `fetchFeedingData` after a successful fetch and parse,
acting on the state cells: the `events.length === 0` early return, else
sort, `setLastMovement(events[0])`, the reset-time filter, the two window
filters, and the four `set*` calls (`breakfastEvents[breakfastEvents.length
- 1]` is `List.getLast?` of the descending-ordered window list). -/
def fetchSuccessStep (s : TrackerState) (events : List Int) (now : Int) : TrackerState :=
  if events.length = 0 then
    { s with breakfastFed := false, dinnerFed := false, lastMovement := none, loading := false }
  else
    { s with
      lastMovement := (sortDesc events).head?
      breakfastFed := decide (0 < (breakfastEventsOf events now).length)
      dinnerFed := decide (0 < (dinnerEventsOf events now).length)
      breakfastTime :=
        if 0 < (breakfastEventsOf events now).length then (breakfastEventsOf events now).getLast?
        else none
      dinnerTime :=
        if 0 < (dinnerEventsOf events now).length then (dinnerEventsOf events now).getLast?
        else none
      loading := false }

/-- One full invocation of `fetchFeedingData`: the `catch` branch sets
`error` and clears `loading`; the success branch parses the text and runs
the classification body.  Note the success branch never writes `error`. -/
def step (jsDate : JSStr → Option Int) (s : TrackerState) (now : Int) :
    FetchOutcome → TrackerState
  | FetchOutcome.failure msg => { s with error := some msg, loading := false }
  | FetchOutcome.success text => fetchSuccessStep s (parseEvents jsDate text) now

/-- The component's top-level rendering choice. -/
inductive RenderMode where
  | spinner
  | errorCard
  | status
deriving DecidableEq, Repr

/-- The render branch of `DogFeedingTracker`: `if (loading) return
<spinner>; if (error) return <error card>;` else the status display. -/
def render (s : TrackerState) : RenderMode :=
  if s.loading then RenderMode.spinner
  else if s.error.isSome then RenderMode.errorCard
  else RenderMode.status

/-- `getTimeAgo`: the human-relative-time label, from the millisecond
difference `now - date` (`Math.floor` on a nonnegative-divisor division is
`Int./`). -/
def getTimeAgo (now date : Int) : JSStr :=
  let diffMs := now - date
  let diffMins := diffMs / msPerMin
  let diffHours := diffMins / 60
  let diffDays := diffHours / 24
  if diffMins < 1 then ("just now").data
  else if diffMins < 60 then (toString diffMins).data ++ ("m ago").data
  else if diffHours < 24 then (toString diffHours).data ++ ("h ago").data
  else (toString diffDays).data ++ ("d ago").data

/-- Day number of 2024-01-01 on the local timeline (days since the local
epoch); only its existence matters, not its value. -/
def exDay : Int := 19723

/-- A local time on 2024-01-01 at the given hour and minute. -/
def mkTime (h m : Int) : Int := exDay * msPerDay + h * msPerHour + m * msPerMin

/-- 2024-01-01T07:30:00 local. -/
def exT0730 : Int := mkTime 7 30

/-- 2024-01-01T07:45:00 local. -/
def exT0745 : Int := mkTime 7 45

/-- 2024-01-01T17:10:00 local. -/
def exT1710 : Int := mkTime 17 10

/-- 2024-01-01T03:00:00 local. -/
def exT0300 : Int := mkTime 3 0

/-- 2024-01-01T01:59:00 local. -/
def exT0159 : Int := mkTime 1 59

/-- 2024-01-01T02:00:00 local. -/
def exT0200 : Int := mkTime 2 0

/-- 2024-01-01T18:00:00 local, the `now` of the spec's example scenario. -/
def exNow : Int := mkTime 18 0

/-- Models the external JS `Date` constructor on the concrete timestamp
strings appearing in the examples; every other string is an invalid date
(`none`, i.e. `isNaN`). -/
def exParse (s : JSStr) : Option Int :=
  if s = ("2024-01-01T07:30:00").data then some exT0730
  else if s = ("2024-01-01T07:45:00").data then some exT0745
  else if s = ("2024-01-01T17:10:00").data then some exT1710
  else if s = ("2024-01-01T03:00:00").data then some exT0300
  else if s = ("2024-01-01T01:59:00").data then some exT0159
  else if s = ("2024-01-01T02:00:00").data then some exT0200
  else none

/-- The spec's example CSV text: a header line and three event lines. -/
def exText : JSStr :=
  ("timestamp,beacon\n2024-01-01T07:30:00,a\n2024-01-01T07:45:00,b\n2024-01-01T17:10:00,c").data

/-- A CSV text consisting of the header line only (its event set is empty). -/
def exHeaderText : JSStr := ("timestamp,beacon").data


/-- The message thrown on a non-ok response: `throw new Error('Failed to
fetch data')`. -/
def exFailMsg : JSStr := ("Failed to fetch data").data

/-- The state after a first cycle whose fetch failed. -/
def exErrorState : TrackerState :=
  step exParse initialState exNow (FetchOutcome.failure exFailMsg)

instance : IsTotal Int (fun a b => b ≤ a) := ⟨fun a b => le_total b a⟩

instance : IsTrans Int (fun a b => b ≤ a) := ⟨fun _ _ _ h₁ h₂ => le_trans h₂ h₁⟩

theorem sortDesc_perm (l : List Int) : (sortDesc l).Perm l :=
  List.perm_insertionSort _ l

theorem sortDesc_sorted (l : List Int) :
    List.Sorted (fun a b : Int => b ≤ a) (sortDesc l) :=
  List.sorted_insertionSort _ l

theorem mem_sortDesc {l : List Int} {d : Int} : d ∈ sortDesc l ↔ d ∈ l :=
  (sortDesc_perm l).mem_iff

theorem sortDesc_ne_nil {l : List Int} (h : l ≠ []) : sortDesc l ≠ [] := by
  intro hnil
  have := (sortDesc_perm l).length_eq
  rw [hnil] at this
  exact h (List.length_eq_zero.mp this.symm)

theorem mem_todayEventsOf {events : List Int} {now d : Int} :
    d ∈ todayEventsOf events now ↔ d ∈ events ∧ resetTimeOf now ≤ d := by
  simp [todayEventsOf, List.mem_filter, mem_sortDesc]

theorem mem_windowEventsOf {lo hi : Int} {events : List Int} {now d : Int} :
    d ∈ windowEventsOf lo hi events now ↔
      d ∈ events ∧ resetTimeOf now ≤ d ∧ lo ≤ getHours d ∧ getHours d < hi := by
  simp [windowEventsOf, List.mem_filter, mem_todayEventsOf, and_assoc]

theorem windowEventsOf_sorted (lo hi : Int) (events : List Int) (now : Int) :
    List.Sorted (fun a b : Int => b ≤ a) (windowEventsOf lo hi events now) :=
  ((sortDesc_sorted events).filter _).filter _

theorem sorted_desc_getLast_min {l : List Int}
    (hs : List.Sorted (fun a b : Int => b ≤ a) l) (h : l ≠ []) :
    ∃ m, l.getLast? = some m ∧ m ∈ l ∧ ∀ e ∈ l, m ≤ e := by
  refine ⟨l.getLast h, List.getLast?_eq_getLast l h, List.getLast_mem h, ?_⟩
  obtain ⟨ys, hys⟩ := List.getLast?_eq_some_iff.mp (List.getLast?_eq_getLast l h)
  intro e he
  rw [hys] at hs he
  rcases List.mem_append.mp he with h1 | h2
  · exact (List.pairwise_append.mp hs).2.2 e h1 _ (List.mem_singleton_self _)
  · rw [List.mem_singleton.mp h2]

theorem sorted_desc_head_max {l : List Int}
    (hs : List.Sorted (fun a b : Int => b ≤ a) l) (h : l ≠ []) :
    ∃ m, l.head? = some m ∧ m ∈ l ∧ ∀ e ∈ l, e ≤ m := by
  match l, hs, h with
  | m :: t, hs, _ =>
    refine ⟨m, rfl, List.mem_cons_self m t, ?_⟩
    intro e he
    rcases List.mem_cons.mp he with rfl | ht
    · exact le_refl _
    · exact List.rel_of_sorted_cons hs e ht

theorem windowEventsOf_getLast_min (lo hi : Int) (events : List Int) (now : Int)
    (h : windowEventsOf lo hi events now ≠ []) :
    ∃ m, (windowEventsOf lo hi events now).getLast? = some m ∧
      (m ∈ events ∧ resetTimeOf now ≤ m ∧ lo ≤ getHours m ∧ getHours m < hi) ∧
      ∀ e ∈ events, resetTimeOf now ≤ e → lo ≤ getHours e → getHours e < hi → m ≤ e := by
  obtain ⟨m, hlast, hmem, hmin⟩ :=
    sorted_desc_getLast_min (windowEventsOf_sorted lo hi events now) h
  refine ⟨m, hlast, mem_windowEventsOf.mp hmem, ?_⟩
  intro e he hr hlo hhi
  exact hmin e (mem_windowEventsOf.mpr ⟨he, hr, hlo, hhi⟩)

theorem fetchSuccessStep_ne_nil (s : TrackerState) {events : List Int} (now : Int)
    (h : events ≠ []) :
    fetchSuccessStep s events now =
      { s with
        lastMovement := (sortDesc events).head?
        breakfastFed := decide (0 < (breakfastEventsOf events now).length)
        dinnerFed := decide (0 < (dinnerEventsOf events now).length)
        breakfastTime :=
          if 0 < (breakfastEventsOf events now).length then
            (breakfastEventsOf events now).getLast?
          else none
        dinnerTime :=
          if 0 < (dinnerEventsOf events now).length then
            (dinnerEventsOf events now).getLast?
          else none
        loading := false } := by
  rw [fetchSuccessStep, if_neg (fun hh => h (List.length_eq_zero.mp hh))]

/-- Claim C1, counterexample: on the spec's own example scenario (events
07:30, 07:45, 17:10; now 18:00) the breakfast window is satisfied but the
displayed breakfast satisfying event is 07:30, not the claimed 07:45: the
code sorts descending and then takes the last element of the filtered
window list, which is the earliest qualifying event. -/
theorem c1_counterexample :
    (step exParse initialState exNow (FetchOutcome.success exText)).breakfastFed = true ∧
    (step exParse initialState exNow (FetchOutcome.success exText)).breakfastTime =
      some exT0730 ∧
    exT0730 ≠ exT0745 := by decide

/-- Claim C1 (amended): for every window that is satisfied in the current
feeding day, the displayed satisfying event is the earliest (the
minimum-timestamp) qualifying event in that window within the current
feeding day, not the most recent one. -/
theorem c1_amended_satisfyingEvent_earliest (events : List Int) (now : Int)
    (s : TrackerState) :
    (breakfastEventsOf events now ≠ [] →
      ∃ m, (fetchSuccessStep s events now).breakfastTime = some m ∧
        (m ∈ events ∧ resetTimeOf now ≤ m ∧ 7 ≤ getHours m ∧ getHours m < 10) ∧
        ∀ e ∈ events, resetTimeOf now ≤ e → 7 ≤ getHours e → getHours e < 10 → m ≤ e) ∧
    (dinnerEventsOf events now ≠ [] →
      ∃ m, (fetchSuccessStep s events now).dinnerTime = some m ∧
        (m ∈ events ∧ resetTimeOf now ≤ m ∧ 16 ≤ getHours m ∧ getHours m < 20) ∧
        ∀ e ∈ events, resetTimeOf now ≤ e → 16 ≤ getHours e → getHours e < 20 → m ≤ e) := by
  constructor
  · intro h
    rw [breakfastEventsOf] at h
    obtain ⟨m, hlast, hq, hmin⟩ := windowEventsOf_getLast_min 7 10 events now h
    have hev : events ≠ [] := by
      intro hnil
      rw [hnil] at hq
      exact absurd hq.1 (List.not_mem_nil m)
    refine ⟨m, ?_, hq, hmin⟩
    rw [fetchSuccessStep_ne_nil s now hev]
    show (if 0 < (breakfastEventsOf events now).length then
        (breakfastEventsOf events now).getLast? else none) = some m
    rw [breakfastEventsOf, if_pos (List.length_pos.mpr h), hlast]
  · intro h
    rw [dinnerEventsOf] at h
    obtain ⟨m, hlast, hq, hmin⟩ := windowEventsOf_getLast_min 16 20 events now h
    have hev : events ≠ [] := by
      intro hnil
      rw [hnil] at hq
      exact absurd hq.1 (List.not_mem_nil m)
    refine ⟨m, ?_, hq, hmin⟩
    rw [fetchSuccessStep_ne_nil s now hev]
    show (if 0 < (dinnerEventsOf events now).length then
        (dinnerEventsOf events now).getLast? else none) = some m
    rw [dinnerEventsOf, if_pos (List.length_pos.mpr h), hlast]

/-- Claim C1 (amended), witness at the example scenario's event set. -/
theorem c1_amended_witness :
    breakfastEventsOf [exT0730, exT0745, exT1710] exNow ≠ [] ∧
    ∃ m, (fetchSuccessStep initialState [exT0730, exT0745, exT1710] exNow).breakfastTime =
        some m ∧
      (m ∈ [exT0730, exT0745, exT1710] ∧ resetTimeOf exNow ≤ m ∧
        7 ≤ getHours m ∧ getHours m < 10) ∧
      ∀ e ∈ [exT0730, exT0745, exT1710],
        resetTimeOf exNow ≤ e → 7 ≤ getHours e → getHours e < 10 → m ≤ e :=
  ⟨by decide,
   (c1_amended_satisfyingEvent_earliest [exT0730, exT0745, exT1710] exNow initialState).1
     (by decide)⟩

/-- Claim C2: window membership is the half-open hour-of-day test — an event
in the feeding day whose hour equals a window's start hour is inside that
window, and one whose hour equals the end hour is outside it. -/
theorem c2_window_halfopen (events : List Int) (now : Int) (d : Int) :
    (d ∈ breakfastEventsOf events now ↔
      d ∈ todayEventsOf events now ∧ 7 ≤ getHours d ∧ getHours d < 10) ∧
    (getHours d = 7 → d ∈ todayEventsOf events now → d ∈ breakfastEventsOf events now) ∧
    (getHours d = 10 → d ∉ breakfastEventsOf events now) ∧
    (d ∈ dinnerEventsOf events now ↔
      d ∈ todayEventsOf events now ∧ 16 ≤ getHours d ∧ getHours d < 20) ∧
    (getHours d = 16 → d ∈ todayEventsOf events now → d ∈ dinnerEventsOf events now) ∧
    (getHours d = 20 → d ∉ dinnerEventsOf events now) := by
  have hb : d ∈ breakfastEventsOf events now ↔
      d ∈ todayEventsOf events now ∧ 7 ≤ getHours d ∧ getHours d < 10 := by
    simp [breakfastEventsOf, windowEventsOf, List.mem_filter]
  have hd : d ∈ dinnerEventsOf events now ↔
      d ∈ todayEventsOf events now ∧ 16 ≤ getHours d ∧ getHours d < 20 := by
    simp [dinnerEventsOf, windowEventsOf, List.mem_filter]
  refine ⟨hb, ?_, ?_, hd, ?_, ?_⟩
  · intro h7 ht
    exact hb.mpr ⟨ht, by omega, by omega⟩
  · intro h10 hmem
    have := (hb.mp hmem).2.2
    omega
  · intro h16 ht
    exact hd.mpr ⟨ht, by omega, by omega⟩
  · intro h20 hmem
    have := (hd.mp hmem).2.2
    omega

/-- Claim C2, witness: events exactly at hours 7 and 16 are classified
inside breakfast and dinner respectively; events exactly at hours 10 and 20
are classified outside. -/
theorem c2_witness :
    mkTime 7 0 ∈ breakfastEventsOf [mkTime 7 0] exNow ∧
    mkTime 10 0 ∉ breakfastEventsOf [mkTime 10 0] exNow ∧
    mkTime 16 0 ∈ dinnerEventsOf [mkTime 16 0] exNow ∧
    mkTime 20 0 ∉ dinnerEventsOf [mkTime 20 0] exNow :=
  ⟨(c2_window_halfopen [mkTime 7 0] exNow (mkTime 7 0)).2.1 (by decide) (by decide),
   (c2_window_halfopen [mkTime 10 0] exNow (mkTime 10 0)).2.2.1 (by decide),
   (c2_window_halfopen [mkTime 16 0] exNow (mkTime 16 0)).2.2.2.2.1 (by decide) (by decide),
   (c2_window_halfopen [mkTime 20 0] exNow (mkTime 20 0)).2.2.2.2.2 (by decide)⟩

/-- Claim C3: the feeding-day start has hour-of-day 2 with zero
minutes/seconds (its offset into its calendar day is exactly 2 hours), it
is the unique such instant with `now` inside `[feedingDayStart,
feedingDayStart + 24h)` — which encodes "today at 2:00, minus one calendar
day when now's hour is before 2" — and an event counts toward window
satisfaction (is in `todayEvents`) exactly when it occurred at or after the
feeding-day start. -/
theorem c3_feeding_day_boundary (now : Int) :
    resetTimeOf now % msPerDay = (2 : Int) * msPerHour ∧
    resetTimeOf now ≤ now ∧
    now < resetTimeOf now + msPerDay ∧
    (∀ r : Int, r % msPerDay = (2 : Int) * msPerHour → r ≤ now → now < r + msPerDay →
      r = resetTimeOf now) ∧
    (∀ (events : List Int) (e : Int),
      e ∈ todayEventsOf events now ↔ e ∈ events ∧ resetTimeOf now ≤ e) := by
  refine ⟨?_, ?_, ?_, ?_, fun events e => mem_todayEventsOf⟩
  · simp only [resetTimeOf, getHours, msPerDay, msPerHour]
    split_ifs <;> omega
  · simp only [resetTimeOf, getHours, msPerDay, msPerHour]
    split_ifs <;> omega
  · simp only [resetTimeOf, getHours, msPerDay, msPerHour]
    split_ifs <;> omega
  · intro r h1 h2 h3
    simp only [msPerDay, msPerHour] at h1 h3
    simp only [resetTimeOf, getHours, msPerDay, msPerHour]
    split_ifs <;> omega

/-- Claim C3, witness: with reset hour 2 and now = 18:00, 02:00 of the same
day is the feeding-day start, the event at 01:59 does not count toward the
current feeding day, and the event at 02:00 does. -/
theorem c3_witness :
    mkTime 2 0 = resetTimeOf exNow ∧
    (exT0159 ∈ todayEventsOf [exT0159, exT0200] exNow ↔
      exT0159 ∈ [exT0159, exT0200] ∧ resetTimeOf exNow ≤ exT0159) ∧
    exT0159 ∉ todayEventsOf [exT0159, exT0200] exNow ∧
    exT0200 ∈ todayEventsOf [exT0159, exT0200] exNow :=
  ⟨(c3_feeding_day_boundary exNow).2.2.2.1 (mkTime 2 0) (by decide) (by decide) (by decide),
   (c3_feeding_day_boundary exNow).2.2.2.2 [exT0159, exT0200] exT0159,
   by decide, by decide⟩

/-- Claim C4: for a non-empty event set, `lastMovement` (the spec's
`lastEventOverall`) is a maximum-timestamp event of the entire unfiltered
set, independent of the feeding-day filter and of window membership. -/
theorem c4_lastEvent_is_max (events : List Int) (now : Int) (s : TrackerState)
    (h : events ≠ []) :
    ∃ m, (fetchSuccessStep s events now).lastMovement = some m ∧ m ∈ events ∧
      ∀ e ∈ events, e ≤ m := by
  obtain ⟨m, hh, hmem, hmax⟩ := sorted_desc_head_max (sortDesc_sorted events) (sortDesc_ne_nil h)
  refine ⟨m, ?_, mem_sortDesc.mp hmem, fun e he => hmax e (mem_sortDesc.mpr he)⟩
  rw [fetchSuccessStep_ne_nil s now h]
  exact hh

/-- Claim C4, witness: the set containing only the 03:00 event leaves both
windows unsatisfied, yet `lastMovement` is that event. -/
theorem c4_witness :
    (∃ m, (fetchSuccessStep initialState [exT0300] exNow).lastMovement = some m ∧
      m ∈ [exT0300] ∧ ∀ e ∈ [exT0300], e ≤ m) ∧
    (fetchSuccessStep initialState [exT0300] exNow).breakfastFed = false ∧
    (fetchSuccessStep initialState [exT0300] exNow).dinnerFed = false ∧
    (fetchSuccessStep initialState [exT0300] exNow).lastMovement = some exT0300 :=
  ⟨c4_lastEvent_is_max [exT0300] exNow initialState (by decide),
   by decide, by decide, by decide⟩

/-- Claim C5: an empty parsed event set marks both windows unsatisfied,
clears `lastMovement`, finishes loading, and raises no error — the `error`
cell is left exactly as it was (in particular `none` stays `none`). -/
theorem c5_empty_set_no_error (jsDate : JSStr → Option Int) (s : TrackerState)
    (now : Int) (text : JSStr) (h : parseEvents jsDate text = []) :
    step jsDate s now (FetchOutcome.success text) =
      { s with breakfastFed := false, dinnerFed := false, lastMovement := none,
               loading := false } ∧
    (step jsDate s now (FetchOutcome.success text)).error = s.error := by
  have hst : step jsDate s now (FetchOutcome.success text) =
      { s with breakfastFed := false, dinnerFed := false, lastMovement := none,
               loading := false } := by
    show fetchSuccessStep s (parseEvents jsDate text) now = _
    rw [h, fetchSuccessStep]
    simp
  exact ⟨hst, by rw [hst]⟩

/-- Claim C5, witness: a fetched text consisting only of the header line
parses to the empty event set and yields the no-events state with `error`
still `none`. -/
theorem c5_witness :
    parseEvents exParse exHeaderText = [] ∧
    step exParse initialState exNow (FetchOutcome.success exHeaderText) =
      { initialState with breakfastFed := false, dinnerFed := false,
                          lastMovement := none, loading := false } ∧
    (step exParse initialState exNow (FetchOutcome.success exHeaderText)).error =
      initialState.error :=
  ⟨by decide,
   (c5_empty_set_no_error exParse initialState exNow exHeaderText (by decide)).1,
   (c5_empty_set_no_error exParse initialState exNow exHeaderText (by decide)).2⟩

theorem splitOnChar_ne_nil (sep : Char) (s : List Char) : splitOnChar sep s ≠ [] := by
  induction s with
  | nil => simp [splitOnChar]
  | cons c rest ih =>
    rw [splitOnChar]
    cases hr : splitOnChar sep rest with
    | nil => simp
    | cons h t => split_ifs <;> simp

theorem splitOnChar_append_cons (sep : Char) (a b : List Char) (ha : sep ∉ a) :
    splitOnChar sep (a ++ sep :: b) = a :: splitOnChar sep b := by
  induction a with
  | nil =>
    rw [List.nil_append, splitOnChar]
    cases hb : splitOnChar sep b with
    | nil => exact absurd hb (splitOnChar_ne_nil sep b)
    | cons h t => simp
  | cons c a' ih =>
    have hc : ¬ c = sep := fun h => ha (h ▸ List.mem_cons_self c a')
    have ha' : sep ∉ a' := fun h => ha (List.mem_cons_of_mem c h)
    rw [List.cons_append, splitOnChar, ih ha']
    simp [hc]

theorem firstField_append_comma (a b : List Char) (ha : ',' ∉ a) :
    firstField (a ++ ',' :: b) = a := by
  rw [firstField, splitOnChar_append_cons ',' a b ha]
  rfl

/-- Claim C6: the parser drops the first line regardless of its content,
skips every line beginning with the comment marker, silently excludes any
non-comment line whose first comma-delimited field the date constructor
rejects — leaving the remaining lines' parse unchanged, with no error and
no halt — and the timestamp it parses is exactly the text before the
line's first comma. -/
theorem c6_parser_skips_invalid (jsDate : JSStr → Option Int) :
    (∀ (h₁ h₂ : JSStr) (rest : List JSStr),
      parseLines jsDate (h₁ :: rest) = parseLines jsDate (h₂ :: rest)) ∧
    (∀ (pre : List JSStr) (l : JSStr) (post : List JSStr), pre ≠ [] →
      startsWithChar '#' l = true →
      parseLines jsDate (pre ++ l :: post) = parseLines jsDate (pre ++ post)) ∧
    (∀ (pre : List JSStr) (l : JSStr) (post : List JSStr), pre ≠ [] →
      jsDate (firstField l) = none →
      parseLines jsDate (pre ++ l :: post) = parseLines jsDate (pre ++ post)) ∧
    (∀ (a b : JSStr), ',' ∉ a → firstField (a ++ ',' :: b) = a) := by
  refine ⟨fun h₁ h₂ rest => rfl, ?_, ?_, fun a b ha => firstField_append_comma a b ha⟩
  · intro pre l post hpre hl
    obtain ⟨p, pre', rfl⟩ := List.exists_cons_of_ne_nil hpre
    simp [parseLines, List.filter_append, List.filter_cons, hl]
  · intro pre l post hpre hl
    obtain ⟨p, pre', rfl⟩ := List.exists_cons_of_ne_nil hpre
    cases hc : startsWithChar '#' l <;>
      simp [parseLines, List.filter_append, List.filter_cons, List.filterMap_append,
        List.filterMap_cons, hc, hl]

/-- Claim C6, witness: concrete header replacement, comment-line removal,
malformed-line removal and first-field extraction, under the example date
constructor. -/
theorem c6_witness :
    parseLines exParse (("timestamp,beacon").data :: [("2024-01-01T07:30:00,a").data]) =
      parseLines exParse (("other header").data :: [("2024-01-01T07:30:00,a").data]) ∧
    parseLines exParse
        ([exHeaderText] ++ ("# comment").data :: [("2024-01-01T07:30:00,a").data]) =
      parseLines exParse ([exHeaderText] ++ [("2024-01-01T07:30:00,a").data]) ∧
    parseLines exParse
        ([exHeaderText] ++ ("not a date,x").data :: [("2024-01-01T07:30:00,a").data]) =
      parseLines exParse ([exHeaderText] ++ [("2024-01-01T07:30:00,a").data]) ∧
    firstField (("2024-01-01T07:30:00").data ++ ',' :: ("a").data) =
      ("2024-01-01T07:30:00").data :=
  ⟨(c6_parser_skips_invalid exParse).1 _ _ _,
   (c6_parser_skips_invalid exParse).2.1 [exHeaderText] _ _ (by decide) (by decide),
   (c6_parser_skips_invalid exParse).2.2.1 [exHeaderText] _ _ (by decide) (by decide),
   (c6_parser_skips_invalid exParse).2.2.2 _ _ (by decide)⟩

/-- Claim C7, counterexample: after a cycle that fails and then a later
cycle that fetches and parses successfully (it even marks breakfast fed),
the error state is still set and the rendering still shows the error card —
the success path never clears `error`, so the suppression does not end at
the next successful cycle. -/
theorem c7_counterexample :
    (step exParse (step exParse initialState exNow (FetchOutcome.failure exFailMsg)) exNow
        (FetchOutcome.success exText)).error = some exFailMsg ∧
    (step exParse (step exParse initialState exNow (FetchOutcome.failure exFailMsg)) exNow
        (FetchOutcome.success exText)).breakfastFed = true ∧
    render (step exParse (step exParse initialState exNow (FetchOutcome.failure exFailMsg)) exNow
        (FetchOutcome.success exText)) = RenderMode.errorCard := by decide

/-- Claim C7 (amended): a failed cycle surfaces as a single error state
that suppresses the status display, but the suppression is permanent
rather than lasting only until the next successful cycle: a successful
cycle leaves the error state exactly as it was (it is never cleared), so
once set, the error card remains rendered after every later cycle. -/
theorem c7_amended_error_persists (jsDate : JSStr → Option Int) (s : TrackerState)
    (now : Int) (msg : JSStr) (text : JSStr) :
    (step jsDate s now (FetchOutcome.failure msg)).error = some msg ∧
    render (step jsDate s now (FetchOutcome.failure msg)) = RenderMode.errorCard ∧
    (step jsDate s now (FetchOutcome.success text)).error = s.error ∧
    (s.error.isSome = true →
      render (step jsDate s now (FetchOutcome.success text)) = RenderMode.errorCard) := by
  have herr : (step jsDate s now (FetchOutcome.success text)).error = s.error := by
    show (fetchSuccessStep s (parseEvents jsDate text) now).error = s.error
    rw [fetchSuccessStep]
    split_ifs <;> rfl
  have hload : (step jsDate s now (FetchOutcome.success text)).loading = false := by
    show (fetchSuccessStep s (parseEvents jsDate text) now).loading = false
    rw [fetchSuccessStep]
    split_ifs <;> rfl
  refine ⟨rfl, by simp [step, render], herr, ?_⟩
  intro hs
  rw [render, if_neg (by simp [hload]), if_pos (by rw [herr]; exact hs)]

/-- Claim C7 (amended), witness: starting from the state left by a failed
cycle, a further failure re-sets the error, and a successful cycle leaves
the error in place so the error card is still rendered. -/
theorem c7_amended_witness :
    (step exParse exErrorState exNow (FetchOutcome.failure exFailMsg)).error =
      some exFailMsg ∧
    render (step exParse exErrorState exNow (FetchOutcome.failure exFailMsg)) =
      RenderMode.errorCard ∧
    (step exParse exErrorState exNow (FetchOutcome.success exText)).error =
      exErrorState.error ∧
    render (step exParse exErrorState exNow (FetchOutcome.success exText)) =
      RenderMode.errorCard :=
  ⟨(c7_amended_error_persists exParse exErrorState exNow exFailMsg exText).1,
   (c7_amended_error_persists exParse exErrorState exNow exFailMsg exText).2.1,
   (c7_amended_error_persists exParse exErrorState exNow exFailMsg exText).2.2.1,
   (c7_amended_error_persists exParse exErrorState exNow exFailMsg exText).2.2.2 (by decide)⟩

/-- Claim C8: the relative-time label is built from `now - date` using the
largest non-zero unit — a whole day or more gives "Nd ago"; less than a day
but at least an hour gives "Nh ago"; less than an hour but at least a
minute gives "Nm ago" — falling back to the finer unit only when the
coarser one is zero. -/
theorem c8_timeAgo_largest_unit (now date : Int) :
    (1 ≤ (now - date) / msPerDay →
      getTimeAgo now date = (toString ((now - date) / msPerDay)).data ++ ("d ago").data) ∧
    ((now - date) / msPerDay = 0 → 1 ≤ (now - date) / msPerHour →
      getTimeAgo now date = (toString ((now - date) / msPerHour)).data ++ ("h ago").data) ∧
    ((now - date) / msPerHour = 0 → 1 ≤ (now - date) / msPerMin →
      getTimeAgo now date = (toString ((now - date) / msPerMin)).data ++ ("m ago").data) ∧
    ((now - date) / msPerMin = 0 → getTimeAgo now date = ("just now").data) := by
  refine ⟨?_, ?_, ?_, ?_⟩
  · intro h
    simp only [msPerDay] at h
    simp only [getTimeAgo, msPerMin, msPerHour, msPerDay]
    have e1 : (now - date) / 60000 / 60 / 24 = (now - date) / 86400000 := by omega
    rw [if_neg (by omega), if_neg (by omega), if_neg (by omega), e1]
  · intro h1 h2
    simp only [msPerDay] at h1
    simp only [msPerHour] at h2
    simp only [getTimeAgo, msPerMin, msPerHour, msPerDay]
    have e1 : (now - date) / 60000 / 60 = (now - date) / 3600000 := by omega
    rw [if_neg (by omega), if_neg (by omega), if_pos (by omega), e1]
  · intro h1 h2
    simp only [msPerHour] at h1
    simp only [msPerMin] at h2
    simp only [getTimeAgo, msPerMin, msPerHour, msPerDay]
    rw [if_neg (by omega), if_pos (by omega)]
  · intro h
    simp only [msPerMin] at h
    simp only [getTimeAgo, msPerMin, msPerHour, msPerDay]
    rw [if_pos (by omega)]

/-- Claim C8, witness: a difference of exactly 3 hours yields the label
"3h ago". -/
theorem c8_witness :
    (mkTime 3 0 - mkTime 0 0) / msPerDay = 0 ∧
    1 ≤ (mkTime 3 0 - mkTime 0 0) / msPerHour ∧
    getTimeAgo (mkTime 3 0) (mkTime 0 0) =
      (toString ((mkTime 3 0 - mkTime 0 0) / msPerHour)).data ++ ("h ago").data ∧
    getTimeAgo (mkTime 3 0) (mkTime 0 0) = ("3h ago").data :=
  ⟨by decide, by decide,
   (c8_timeAgo_largest_unit (mkTime 3 0) (mkTime 0 0)).2.1 (by decide) (by decide),
   by decide⟩

/-- Claim C9, counterexample: the classification outputs do depend on state
retained from previous cycles — two cycles fed the identical input (the
header-only text, now = 18:00) but started from different prior states
produce different `breakfastTime` results, because the empty-set branch
leaves the previous cycle's satisfying-event times in place. -/
theorem c9_counterexample :
    (step exParse { initialState with breakfastTime := some exT0730 } exNow
        (FetchOutcome.success exHeaderText)).breakfastTime ≠
      (step exParse initialState exNow (FetchOutcome.success exHeaderText)).breakfastTime := by
  decide

/-- Claim C9 (amended): classification is deterministic and the fed flags
and `lastMovement` are pure functions of the cycle's input, independent of
the prior state; the satisfying-event times are likewise prior-state
independent whenever the parsed event set is non-empty, but on an empty
parse they retain the prior state's values. -/
theorem c9_amended_classification_pure (jsDate : JSStr → Option Int) (text : JSStr)
    (now : Int) (s₁ s₂ : TrackerState) :
    (step jsDate s₁ now (FetchOutcome.success text)).breakfastFed =
      (step jsDate s₂ now (FetchOutcome.success text)).breakfastFed ∧
    (step jsDate s₁ now (FetchOutcome.success text)).dinnerFed =
      (step jsDate s₂ now (FetchOutcome.success text)).dinnerFed ∧
    (step jsDate s₁ now (FetchOutcome.success text)).lastMovement =
      (step jsDate s₂ now (FetchOutcome.success text)).lastMovement ∧
    (parseEvents jsDate text ≠ [] →
      (step jsDate s₁ now (FetchOutcome.success text)).breakfastTime =
        (step jsDate s₂ now (FetchOutcome.success text)).breakfastTime ∧
      (step jsDate s₁ now (FetchOutcome.success text)).dinnerTime =
        (step jsDate s₂ now (FetchOutcome.success text)).dinnerTime) := by
  by_cases hE : (parseEvents jsDate text).length = 0
  · refine ⟨?_, ?_, ?_, fun h => absurd (List.length_eq_zero.mp hE) h⟩ <;>
      simp [step, fetchSuccessStep, hE]
  · refine ⟨?_, ?_, ?_, fun h => ⟨?_, ?_⟩⟩ <;>
      simp [step, fetchSuccessStep, hE]

/-- Claim C9 (amended), witness: on the example text the full classification
output agrees across two different prior states. -/
theorem c9_amended_witness :
    parseEvents exParse exText ≠ [] ∧
    (step exParse initialState exNow (FetchOutcome.success exText)).breakfastFed =
      (step exParse exErrorState exNow (FetchOutcome.success exText)).breakfastFed ∧
    (step exParse initialState exNow (FetchOutcome.success exText)).breakfastTime =
      (step exParse exErrorState exNow (FetchOutcome.success exText)).breakfastTime ∧
    (step exParse initialState exNow (FetchOutcome.success exText)).dinnerTime =
      (step exParse exErrorState exNow (FetchOutcome.success exText)).dinnerTime :=
  ⟨by decide,
   (c9_amended_classification_pure exParse exText exNow initialState exErrorState).1,
   ((c9_amended_classification_pure exParse exText exNow initialState exErrorState).2.2.2
     (by decide)).1,
   ((c9_amended_classification_pure exParse exText exNow initialState exErrorState).2.2.2
     (by decide)).2⟩

/-- Claim C10, counterexample: after a first cycle that marks breakfast fed
(the example text) followed by a cycle whose parsed event set is empty (the
header-only text), the breakfast fed flag is false while the breakfast
satisfying-event time is still non-null — the flag and the time disagree,
because the empty-set branch resets the flags but not the times. -/
theorem c10_counterexample :
    (step exParse (step exParse initialState exNow (FetchOutcome.success exText)) exNow
        (FetchOutcome.success exHeaderText)).breakfastFed = false ∧
    (step exParse (step exParse initialState exNow (FetchOutcome.success exText)) exNow
        (FetchOutcome.success exHeaderText)).breakfastTime = some exT0730 := by
  decide

set_option maxHeartbeats 1600000 in
/-- Claim C10 (amended): one direction of the agreement is an invariant —
if a window's fed flag holds then its satisfying-event time is non-null,
and every cycle (failure or success) preserves this; the full "fed iff time
non-null" agreement holds after any cycle whose parsed event set is
non-empty, but the empty-set branch clears the flags without clearing the
times, so after it the time may be non-null while the flag is false. -/
theorem c10_amended_fed_time_agreement (jsDate : JSStr → Option Int) (s : TrackerState)
    (now : Int) (msg text : JSStr) :
    ((s.breakfastFed = true → s.breakfastTime.isSome = true) →
      ((step jsDate s now (FetchOutcome.failure msg)).breakfastFed = true →
        (step jsDate s now (FetchOutcome.failure msg)).breakfastTime.isSome = true) ∧
      ((step jsDate s now (FetchOutcome.success text)).breakfastFed = true →
        (step jsDate s now (FetchOutcome.success text)).breakfastTime.isSome = true)) ∧
    ((s.dinnerFed = true → s.dinnerTime.isSome = true) →
      ((step jsDate s now (FetchOutcome.failure msg)).dinnerFed = true →
        (step jsDate s now (FetchOutcome.failure msg)).dinnerTime.isSome = true) ∧
      ((step jsDate s now (FetchOutcome.success text)).dinnerFed = true →
        (step jsDate s now (FetchOutcome.success text)).dinnerTime.isSome = true)) ∧
    (parseEvents jsDate text ≠ [] →
      ((step jsDate s now (FetchOutcome.success text)).breakfastFed = true ↔
        (step jsDate s now (FetchOutcome.success text)).breakfastTime.isSome = true) ∧
      ((step jsDate s now (FetchOutcome.success text)).dinnerFed = true ↔
        (step jsDate s now (FetchOutcome.success text)).dinnerTime.isSome = true)) := by
  have key : ∀ l : List Int,
      (decide (0 < l.length) = true ↔ (if 0 < l.length then l.getLast? else none).isSome = true) := by
    intro l
    by_cases hl : 0 < l.length
    · simp [hl, List.getLast?_isSome, List.length_pos.mp hl]
    · simp [hl]
  by_cases hE : (parseEvents jsDate text).length = 0
  · refine ⟨fun hinv => ⟨fun h => hinv h, fun h => ?_⟩,
            fun hinv => ⟨fun h => hinv h, fun h => ?_⟩,
            fun h => absurd (List.length_eq_zero.mp hE) h⟩ <;>
      · exfalso
        revert h
        simp [step, fetchSuccessStep, hE]
  · refine ⟨fun hinv => ⟨fun h => hinv h, fun h => ?_⟩,
            fun hinv => ⟨fun h => hinv h, fun h => ?_⟩,
            fun hne => ⟨?_, ?_⟩⟩
    · revert h
      show (fetchSuccessStep s (parseEvents jsDate text) now).breakfastFed = true →
        (fetchSuccessStep s (parseEvents jsDate text) now).breakfastTime.isSome = true
      rw [fetchSuccessStep, if_neg hE]
      exact fun h => (key _).mp h
    · revert h
      show (fetchSuccessStep s (parseEvents jsDate text) now).dinnerFed = true →
        (fetchSuccessStep s (parseEvents jsDate text) now).dinnerTime.isSome = true
      rw [fetchSuccessStep, if_neg hE]
      exact fun h => (key _).mp h
    · show (fetchSuccessStep s (parseEvents jsDate text) now).breakfastFed = true ↔
        (fetchSuccessStep s (parseEvents jsDate text) now).breakfastTime.isSome = true
      rw [fetchSuccessStep, if_neg hE]
      exact key _
    · show (fetchSuccessStep s (parseEvents jsDate text) now).dinnerFed = true ↔
        (fetchSuccessStep s (parseEvents jsDate text) now).dinnerTime.isSome = true
      rw [fetchSuccessStep, if_neg hE]
      exact key _

/-- Claim C10 (amended), witness: from the initial state, a cycle on the
example text yields agreeing fed flags and satisfying-event times. -/
theorem c10_amended_witness :
    parseEvents exParse exText ≠ [] ∧
    ((step exParse initialState exNow (FetchOutcome.success exText)).breakfastFed = true ↔
      (step exParse initialState exNow
        (FetchOutcome.success exText)).breakfastTime.isSome = true) ∧
    ((step exParse initialState exNow (FetchOutcome.success exText)).dinnerFed = true ↔
      (step exParse initialState exNow
        (FetchOutcome.success exText)).dinnerTime.isSome = true) :=
  ⟨by decide,
   ((c10_amended_fed_time_agreement exParse initialState exNow exFailMsg exText).2.2
     (by decide)).1,
   ((c10_amended_fed_time_agreement exParse initialState exNow exFailMsg exText).2.2
     (by decide)).2⟩
